import Mathlib

/-!
Verification of the job-event relay of `code-in-backend`.

The development shallowly embeds `src/lib/websocket.ts` (subscription
registry, event relay, connection gateway), `src/lib/redis.ts`
(queue producer `pushJobToQueue`) and the job-submission route of
`src/routes/repos.ts`.

Modelling conventions:
* An `ObserverConnection` (a WebSocket handle) is identified by a `Nat`.
* A JavaScript `Set` of connections is a `Finset Nat` (identity-keyed,
  duplicate-free membership, which is exactly JS `Set` semantics).
* The JavaScript `Map<string, Set<WS>>` `jobSubscriptions` is an
  insertion-ordered association list `List (String × Finset Nat)` with
  `mapGet` / `mapSet` / `mapDelete` mirroring `Map.get` / `Map.set` /
  `Map.delete` (set replaces in place, otherwise appends at the end).
* Sending on a socket is an external effect; functions that send return
  the list of `(connection, message)` pairs handed to the transport.
  The environment `ConnEnv` supplies each connection's `readyState` and
  whether the underlying `ws.send` throws, so the try/catch of
  `sendMessage` can be modelled faithfully by `sendMessageE`.
-/

/-- Job status enumeration shared by the job store and `StatusMessage`
(`"pending" | "processing" | "completed" | "failed"`). -/
inductive JobStatus
  | pending
  | processing
  | completed
  | failed
  deriving DecidableEq, Repr

/-- `StatusMessage` from `src/lib/redis.ts`. -/
structure StatusMessage where
  job_id : String
  status : JobStatus
  message : Option String := none
  progress : Option Int := none
  timestamp : String := ""
  deriving DecidableEq, Repr

/-- `CompleteMessage` from `src/lib/redis.ts`. -/
structure CompleteMessage where
  job_id : String
  success : Bool
  error : Option String := none
  timestamp : String := ""
  deriving DecidableEq, Repr

/-- The `data` payload attached to an outbound relay message. -/
inductive Payload
  | statusPayload (s : StatusMessage)
  | completePayload (c : CompleteMessage)
  deriving DecidableEq, Repr

/-- The tag of `WSOutgoingMessage.type`. -/
inductive Tag
  | status
  | complete
  | error
  | subscribed
  | pong
  deriving DecidableEq, Repr

/-- `WSOutgoingMessage` from `src/lib/websocket.ts`. -/
structure OutMsg where
  tag : Tag
  job_id : Option String := none
  data : Option Payload := none
  message : Option String := none
  deriving DecidableEq, Repr

/-- The type tag of an inbound control message (`WSMessage.type`). -/
inductive WSType
  | subscribe
  | unsubscribe
  | ping
  deriving DecidableEq, Repr

/-- `WSMessage` from `src/lib/websocket.ts`. -/
structure WSMessage where
  type : WSType
  job_id : Option String := none
  deriving DecidableEq, Repr

/-- The `jobSubscriptions` map: job id to set of subscribed connections,
in insertion order, as a JavaScript `Map<string, Set<WS>>`. -/
abbrev Registry := List (String × Finset Nat)

/-- `Map.get`: first entry with the given key, if any. -/
def mapGet (reg : Registry) (k : String) : Option (Finset Nat) :=
  match reg with
  | [] => none
  | (k', v) :: rest => if k' = k then some v else mapGet rest k

/-- `Map.set`: replace the entry in place when the key is present,
otherwise append a new entry at the end. -/
def mapSet (reg : Registry) (k : String) (v : Finset Nat) : Registry :=
  match reg with
  | [] => [(k, v)]
  | (k', v') :: rest =>
      if k' = k then (k, v) :: rest else (k', v') :: mapSet rest k v

/-- `Map.delete`: remove every entry with the given key. -/
def mapDelete (reg : Registry) (k : String) : Registry :=
  reg.filter (fun p => decide (p.1 ≠ k))

/-- The observer set currently registered for a job (empty when the job
has no entry). -/
def subsOf (reg : Registry) (j : String) : Finset Nat :=
  (mapGet reg j).getD ∅

/-- Environment describing the transport state of each connection:
its `readyState` (`1` = OPEN) and whether `ws.send` throws on it. -/
structure ConnEnv where
  readyState : Nat → Nat
  sendFails : Nat → Bool

/-- The raw `ws.send(JSON.stringify(message))` call: delivers the message
or throws, depending on the environment. -/
def rawSend (env : ConnEnv) (ws : Nat) (m : OutMsg) :
    Except String (List (Nat × OutMsg)) :=
  if env.sendFails ws then Except.error "send failed" else Except.ok [(ws, m)]

/-- `sendMessage` with its try/catch made explicit: the body sends only
when `readyState === 1`, and any exception of the raw send is caught and
logged, so the result is always `Except.ok`. -/
def sendMessageE (env : ConnEnv) (ws : Nat) (m : OutMsg) :
    Except String (List (Nat × OutMsg)) :=
  match (if env.readyState ws = 1 then rawSend env ws m else Except.ok []) with
  | Except.ok out => Except.ok out
  | Except.error _ => Except.ok []

/-- `sendMessage` from `src/lib/websocket.ts`: the messages actually
handed to the transport (at most one). -/
def sendMessage (env : ConnEnv) (ws : Nat) (m : OutMsg) : List (Nat × OutMsg) :=
  (sendMessageE env ws m).toOption.getD []

/-- One enumeration of a set of connections, as `Set.forEach` visits it
(computable, duplicate-free, containing exactly the members). -/
def setToList (s : Finset Nat) : List Nat :=
  s.sort (fun a b => a ≤ b)

/-- `broadcastToJob`: look the job up in `jobSubscriptions` and call
`sendMessage` once per subscriber; the result is the sequence of
`sendMessage` invocations performed by the relay. -/
def broadcastToJob (reg : Registry) (jobId : String) (m : OutMsg) :
    List (Nat × OutMsg) :=
  match mapGet reg jobId with
  | some subscribers => (setToList subscribers).map (fun ws => (ws, m))
  | none => []

/-- The outbound message built by `handleStatusUpdate` for a status event. -/
def statusOutMsg (status : StatusMessage) : OutMsg :=
  { tag := Tag.status
    job_id := some status.job_id
    data := some (Payload.statusPayload status) }

/-- `handleStatusUpdate` from `src/lib/websocket.ts`. -/
def handleStatusUpdate (reg : Registry) (status : StatusMessage) :
    List (Nat × OutMsg) :=
  broadcastToJob reg status.job_id (statusOutMsg status)

/-- The outbound message built by `handleCompleteUpdate`. -/
def completeOutMsg (complete : CompleteMessage) : OutMsg :=
  { tag := Tag.complete
    job_id := some complete.job_id
    data := some (Payload.completePayload complete) }

/-- `handleCompleteUpdate` from `src/lib/websocket.ts`. -/
def handleCompleteUpdate (reg : Registry) (complete : CompleteMessage) :
    List (Nat × OutMsg) :=
  broadcastToJob reg complete.job_id (completeOutMsg complete)

/-- The acknowledgment message sent by `subscribeToJob`. -/
def subscribedMsg (jobId : String) : OutMsg :=
  { tag := Tag.subscribed
    job_id := some jobId
    message := some ("Subscribed to job " ++ jobId) }

/-- `subscribeToJob` from `src/lib/websocket.ts`: ensure the job has an
entry, add the connection to its set, then send the `subscribed`
acknowledgment.  Returns the new registry and the sent messages. -/
def subscribeToJob (env : ConnEnv) (ws : Nat) (jobId : String)
    (reg : Registry) : Registry × List (Nat × OutMsg) :=
  let reg1 := if (mapGet reg jobId).isSome then reg else mapSet reg jobId ∅
  let reg2 :=
    match mapGet reg1 jobId with
    | some subscribers => mapSet reg1 jobId (insert ws subscribers)
    | none => reg1
  (reg2, sendMessage env ws (subscribedMsg jobId))

/-- `unsubscribeFromJob` from `src/lib/websocket.ts`: delete the
connection from the job's set and drop the entry when the set becomes
empty.  Sends nothing. -/
def unsubscribeFromJob (ws : Nat) (jobId : String) (reg : Registry) :
    Registry :=
  match mapGet reg jobId with
  | none => reg
  | some subscribers =>
      let subscribers' := subscribers.erase ws
      if subscribers'.card = 0 then mapDelete reg jobId
      else mapSet reg jobId subscribers'

/-- The registry part of `cleanupConnection`: for every entry, delete the
connection from its set and drop the entry when the set becomes empty. -/
def cleanupReg (ws : Nat) : Registry → Registry
  | [] => []
  | (jobId, subscribers) :: rest =>
      let subscribers' := subscribers.erase ws
      if subscribers'.card = 0 then cleanupReg ws rest
      else (jobId, subscribers') :: cleanupReg ws rest

/-- The shared mutable state of the gateway: `allConnections` and
`jobSubscriptions`. -/
structure RelayState where
  allConnections : Finset Nat
  jobSubscriptions : Registry
  deriving DecidableEq

/-- `cleanupConnection` from `src/lib/websocket.ts`: remove the
connection from `allConnections` and from every job subscription set,
deleting entries that become empty. -/
def cleanupConnection (ws : Nat) (st : RelayState) : RelayState :=
  { allConnections := st.allConnections.erase ws
    jobSubscriptions := cleanupReg ws st.jobSubscriptions }

/-- The `message` handler of the websocket plugin: dispatch on the
inbound control message, returning the new state and the messages sent. -/
def handleMessage (env : ConnEnv) (ws : Nat) (msg : WSMessage)
    (st : RelayState) : RelayState × List (Nat × OutMsg) :=
  match msg.type with
  | WSType.subscribe =>
      match msg.job_id with
      | some j =>
          ({ st with jobSubscriptions := (subscribeToJob env ws j st.jobSubscriptions).1 },
           (subscribeToJob env ws j st.jobSubscriptions).2)
      | none => (st, [])
  | WSType.unsubscribe =>
      match msg.job_id with
      | some j =>
          ({ st with jobSubscriptions := unsubscribeFromJob ws j st.jobSubscriptions }, [])
      | none => (st, [])
  | WSType.ping => (st, sendMessage env ws { tag := Tag.pong })

/-- The state before any connection: empty connection set, empty map. -/
def initialState : RelayState :=
  { allConnections := ∅, jobSubscriptions := [] }

/-- States reachable from the initial state through the websocket
plugin's handlers: `open` (register the connection), `message`
(subscribe / unsubscribe / ping), and `close` or `error`
(`cleanupConnection`). -/
inductive Reachable : RelayState → Prop
  | init : Reachable initialState
  | openConn (ws : Nat) (st : RelayState) :
      Reachable st →
      Reachable { st with allConnections := insert ws st.allConnections }
  | message (env : ConnEnv) (ws : Nat) (msg : WSMessage) (st : RelayState) :
      Reachable st → Reachable (handleMessage env ws msg st).1
  | close (ws : Nat) (st : RelayState) :
      Reachable st → Reachable (cleanupConnection ws st)

/-- The `forEach` loop of `broadcastToJob` under interleaved registry
mutation: before recursing past the visited element, an arbitrary set of
not-yet-visited connections may be removed from the live observer set
(the effect on the iteration of any `unsubscribeFromJob` /
`cleanupConnection` running between two sends).  `sched` lists the
removals applied after each visit. -/
def forEachSend (m : OutMsg) (pending : List Nat) (sched : List (Finset Nat)) :
    List (Nat × OutMsg) :=
  match pending with
  | [] => []
  | ws :: rest =>
      (ws, m) ::
        forEachSend m (rest.filter (fun w => decide (w ∉ sched.headD ∅))) sched.tail
termination_by pending.length
decreasing_by
  simp only [List.length_cons]
  exact Nat.lt_succ_of_le (List.length_filter_le _ _)

/-! ### Job submission route (`src/routes/repos.ts` POST `/repos/`) and
the queue producer (`src/lib/redis.ts` `pushJobToQueue`).

The route's external collaborators (URL validation outcome, the job id
returned by the Supabase `createJob`, and whether the Redis `lPush`
throws) are supplied by a `SubmitEnv`; the observable behaviour is the
HTTP response plus the trace of side effects on the job store and the
bus. -/

/-- A side effect of the submission route on the job store or the bus. -/
inductive Effect
  | updateStatus (jobId : String) (status : JobStatus) (errorMessage : Option String)
  | queueListPush (jobId : String)
  | publishStatusEvent (jobId : String)
  | publishCompleteEvent (jobId : String)
  deriving DecidableEq, Repr

/-- Outcome of the route's external collaborators for one submission. -/
structure SubmitEnv where
  urlValid : Bool
  createdJob : Option String
  queuePushFails : Bool

/-- The HTTP response of the submission route. -/
structure RouteResponse where
  httpStatus : Nat
  success : Bool
  error : Option String := none
  job_id : Option String := none
  deriving DecidableEq, Repr

/-- `pushJobToQueue` from `src/lib/redis.ts`: `lPush` the job descriptor
onto the durable work list, or raise when the bus write fails. -/
def pushJobToQueue (env : SubmitEnv) (jobId : String) :
    Except String (List Effect) :=
  if env.queuePushFails then Except.error "QueueUnavailable"
  else Except.ok [Effect.queueListPush jobId]

/-- The POST `/repos/` handler of `src/routes/repos.ts`: validate the
URL, create the job, mark it `processing`, try to enqueue it, and on
enqueue failure mark it `failed` with message `"Failed to queue job"`
and answer HTTP 500. -/
def submitRepo (env : SubmitEnv) : RouteResponse × List Effect :=
  if env.urlValid = false then
    ({ httpStatus := 400, success := false,
       error := some "Invalid repository URL. Supported: GitHub, GitLab, Bitbucket" }, [])
  else
    match env.createdJob with
    | none =>
        ({ httpStatus := 500, success := false, error := some "Failed to create job" }, [])
    | some jid =>
        match pushJobToQueue env jid with
        | Except.ok pushEff =>
            ({ httpStatus := 200, success := true, job_id := some jid },
             Effect.updateStatus jid JobStatus.processing none :: pushEff)
        | Except.error _ =>
            ({ httpStatus := 500, success := false,
               error := some "Failed to queue job for processing" },
             [Effect.updateStatus jid JobStatus.processing none,
              Effect.updateStatus jid JobStatus.failed (some "Failed to queue job")])

/-! ### Supporting lemmas about the map operations -/

theorem mapGet_mapSet_self (reg : Registry) (k : String) (v : Finset Nat) :
    mapGet (mapSet reg k v) k = some v := by
  induction reg with
  | nil => simp [mapSet, mapGet]
  | cons p rest ih =>
      obtain ⟨k', v'⟩ := p
      by_cases h : k' = k
      · simp [mapSet, h, mapGet]
      · simp [mapSet, h, mapGet, ih]

theorem mapSet_mapSet (reg : Registry) (k : String) (v v' : Finset Nat) :
    mapSet (mapSet reg k v) k v' = mapSet reg k v' := by
  induction reg with
  | nil => simp [mapSet]
  | cons p rest ih =>
      obtain ⟨k'', v''⟩ := p
      by_cases h : k'' = k
      · simp [mapSet, h]
      · simp [mapSet, h, ih]

theorem mapSet_eq_of_mapGet (reg : Registry) (k : String) (v : Finset Nat)
    (h : mapGet reg k = some v) : mapSet reg k v = reg := by
  induction reg with
  | nil => simp [mapGet] at h
  | cons p rest ih =>
      obtain ⟨k', v'⟩ := p
      by_cases hk : k' = k
      · simp [mapGet, hk] at h
        simp [mapSet, hk, h]
      · simp [mapGet, hk] at h
        simp [mapSet, hk, ih h]

theorem mem_mapSet (reg : Registry) (k : String) (v : Finset Nat)
    (p : String × Finset Nat) (h : p ∈ mapSet reg k v) :
    p ∈ reg ∨ p = (k, v) := by
  induction reg with
  | nil => simp [mapSet] at h; right; exact h
  | cons q rest ih =>
      obtain ⟨k', v'⟩ := q
      by_cases hk : k' = k
      · simp [mapSet, hk] at h
        rcases h with h | h
        · right; simpa using h
        · left; simp [h]
      · simp [mapSet, hk] at h
        rcases h with h | h
        · left; simp [h]
        · rcases ih h with h1 | h1
          · left; simp [h1]
          · right; exact h1

theorem mapGet_mem (reg : Registry) (k : String) (v : Finset Nat)
    (h : mapGet reg k = some v) : (k, v) ∈ reg := by
  induction reg with
  | nil => simp [mapGet] at h
  | cons p rest ih =>
      obtain ⟨k', v'⟩ := p
      by_cases hk : k' = k
      · simp [mapGet, hk] at h
        simp [hk, h]
      · simp [mapGet, hk] at h
        simp [ih h]

theorem mem_mapDelete (reg : Registry) (k : String) (p : String × Finset Nat)
    (h : p ∈ mapDelete reg k) : p ∈ reg :=
  List.mem_of_mem_filter h

/-- `subscribeToJob` rewrites the registry to one `mapSet` inserting the
connection into the job's current set. -/
theorem subscribeToJob_fst (env : ConnEnv) (ws : Nat) (j : String)
    (reg : Registry) :
    (subscribeToJob env ws j reg).1 = mapSet reg j (insert ws (subsOf reg j)) := by
  unfold subscribeToJob subsOf
  cases h : mapGet reg j with
  | some s => simp [h]
  | none => simp [h, mapGet_mapSet_self, mapSet_mapSet]

/-- Well-formedness of the registry: no entry holds an empty set. -/
def RegWF (reg : Registry) : Prop :=
  ∀ p ∈ reg, p.2 ≠ (∅ : Finset Nat)

theorem regWF_subscribeToJob (env : ConnEnv) (ws : Nat) (j : String)
    (reg : Registry) (h : RegWF reg) :
    RegWF (subscribeToJob env ws j reg).1 := by
  rw [subscribeToJob_fst]
  intro p hp
  rcases mem_mapSet _ _ _ _ hp with h1 | h1
  · exact h p h1
  · rw [h1]
    exact Finset.insert_ne_empty _ _

theorem regWF_unsubscribeFromJob (ws : Nat) (j : String) (reg : Registry)
    (h : RegWF reg) : RegWF (unsubscribeFromJob ws j reg) := by
  unfold unsubscribeFromJob
  cases hg : mapGet reg j with
  | none => exact h
  | some s =>
      by_cases hc : (s.erase ws).card = 0
      · simp only [hc, if_pos rfl]
        intro p hp
        exact h p (mem_mapDelete _ _ _ hp)
      · simp only [hc, if_neg hc]
        intro p hp
        rcases mem_mapSet _ _ _ _ hp with h1 | h1
        · exact h p h1
        · rw [h1]
          intro he
          simp only at he
          exact hc (by rw [he]; exact Finset.card_empty)

theorem regWF_cleanupReg (ws : Nat) (reg : Registry) :
    RegWF (cleanupReg ws reg) := by
  induction reg with
  | nil => intro p hp; simp [cleanupReg] at hp
  | cons q rest ih =>
      obtain ⟨k, v⟩ := q
      intro p hp
      by_cases hc : (v.erase ws).card = 0
      · rw [cleanupReg] at hp
        simp only [hc, if_pos rfl] at hp
        exact ih p hp
      · rw [cleanupReg] at hp
        simp only [if_neg hc, List.mem_cons] at hp
        rcases hp with h1 | h1
        · rw [h1]
          intro he
          simp only at he
          exact hc (by rw [he]; exact Finset.card_empty)
        · exact ih p h1

/-- Every state reachable through the gateway handlers has a
well-formed registry. -/
theorem reachable_regWF (st : RelayState) (h : Reachable st) :
    RegWF st.jobSubscriptions := by
  induction h with
  | init => intro p hp; simp [initialState] at hp
  | openConn ws st _ ih => exact ih
  | message env ws msg st _ ih =>
      unfold handleMessage
      cases msg.type with
      | subscribe =>
          cases msg.job_id with
          | some j => exact regWF_subscribeToJob env ws j _ ih
          | none => exact ih
      | unsubscribe =>
          cases msg.job_id with
          | some j => exact regWF_unsubscribeFromJob ws j _ ih
          | none => exact ih
      | ping => exact ih
  | close ws st _ ih => exact regWF_cleanupReg ws _

theorem subsOf_subscribeToJob (env : ConnEnv) (ws : Nat) (j : String)
    (reg : Registry) :
    subsOf (subscribeToJob env ws j reg).1 j = insert ws (subsOf reg j) := by
  rw [subscribeToJob_fst]
  unfold subsOf
  rw [mapGet_mapSet_self]
  rfl

theorem mapGet_cleanupReg_not_mem (ws : Nat) (reg : Registry) (j : String)
    (s : Finset Nat) (h : mapGet (cleanupReg ws reg) j = some s) : ws ∉ s := by
  induction reg with
  | nil => simp [cleanupReg, mapGet] at h
  | cons q rest ih =>
      obtain ⟨k, v⟩ := q
      by_cases hc : (v.erase ws).card = 0
      · rw [cleanupReg] at h
        simp only [hc, if_pos rfl] at h
        exact ih h
      · rw [cleanupReg] at h
        simp only [if_neg hc, mapGet] at h
        by_cases hk : k = j
        · rw [if_pos hk] at h
          injection h with h2
          rw [← h2]
          exact Finset.not_mem_erase _ _
        · simp only [if_neg hk] at h
          exact ih h

theorem cleanupReg_noop (ws : Nat) (reg : Registry) :
    RegWF reg → (∀ p ∈ reg, ws ∉ p.2) → cleanupReg ws reg = reg := by
  induction reg with
  | nil => intro _ _; rfl
  | cons q rest ih =>
      intro hwf hnm
      obtain ⟨k, v⟩ := q
      have hv : ws ∉ v := hnm (k, v) (by simp)
      have hv2 : v ≠ ∅ := hwf (k, v) (by simp)
      have he : v.erase ws = v := Finset.erase_eq_of_not_mem hv
      have hc2 : ¬ v.card = 0 := fun h0 => hv2 (Finset.card_eq_zero.mp h0)
      rw [cleanupReg]
      simp only [he]
      rw [if_neg hc2,
        ih (fun p hp => hwf p (by simp [hp])) (fun p hp => hnm p (by simp [hp]))]

theorem cleanupReg_idem (ws : Nat) (reg : Registry) :
    cleanupReg ws (cleanupReg ws reg) = cleanupReg ws reg := by
  induction reg with
  | nil => rfl
  | cons q rest ih =>
      obtain ⟨k, v⟩ := q
      by_cases hc : (v.erase ws).card = 0
      · rw [cleanupReg]
        simp only [hc, if_pos rfl]
        exact ih
      · rw [cleanupReg]
        simp only [if_neg hc]
        rw [cleanupReg]
        simp only [Finset.erase_idem, if_neg hc]
        rw [ih]

theorem forEachSend_snd (m : OutMsg) (pending : List Nat)
    (sched : List (Finset Nat)) :
    ∀ p ∈ forEachSend m pending sched, p.2 = m := by
  refine forEachSend.induct m
    (fun pending sched => ∀ p ∈ forEachSend m pending sched, p.2 = m)
    ?_ ?_ pending sched
  · intro sched p hp
    simp [forEachSend] at hp
  · intro sched ws rest ih p hp
    rw [forEachSend] at hp
    rcases List.mem_cons.mp hp with h | h
    · rw [h]
    · exact ih p h

theorem forEachSend_fst_mem (m : OutMsg) (pending : List Nat)
    (sched : List (Finset Nat)) :
    ∀ p ∈ forEachSend m pending sched, p.1 ∈ pending := by
  refine forEachSend.induct m
    (fun pending sched => ∀ p ∈ forEachSend m pending sched, p.1 ∈ pending)
    ?_ ?_ pending sched
  · intro sched p hp
    simp [forEachSend] at hp
  · intro sched ws rest ih p hp
    rw [forEachSend] at hp
    rcases List.mem_cons.mp hp with h | h
    · rw [h]
      exact List.mem_cons_self _ _
    · exact List.mem_cons_of_mem _ (List.mem_of_mem_filter (ih p h))

theorem forEachSend_fst_nodup (m : OutMsg) (pending : List Nat)
    (sched : List (Finset Nat)) (hnd : pending.Nodup) :
    ((forEachSend m pending sched).map Prod.fst).Nodup := by
  refine forEachSend.induct m
    (fun pending sched =>
      pending.Nodup → ((forEachSend m pending sched).map Prod.fst).Nodup)
    ?_ ?_ pending sched hnd
  · intro sched _
    simp [forEachSend]
  · intro sched ws rest ih hnd2
    rw [forEachSend]
    rw [List.map_cons, List.nodup_cons]
    constructor
    · intro hmem
      rcases List.mem_map.mp hmem with ⟨p, hp, hfst⟩
      have h1 : p.1 ∈ rest.filter (fun w => decide (w ∉ sched.headD ∅)) :=
        forEachSend_fst_mem _ _ _ p hp
      have hfst2 : p.1 = ws := hfst
      have h2 : ws ∈ rest := by
        rw [hfst2] at h1
        exact List.mem_of_mem_filter h1
      exact (List.nodup_cons.mp hnd2).1 h2
    · exact ih ((List.nodup_cons.mp hnd2).2.filter _)

theorem forEachSend_no_mutation (m : OutMsg) (pending : List Nat) :
    forEachSend m pending [] = pending.map (fun ws => (ws, m)) := by
  induction pending with
  | nil => simp [forEachSend]
  | cons ws rest ih =>
      rw [forEachSend]
      simp only [List.headD_nil, Finset.not_mem_empty, not_false_eq_true,
        decide_True, List.filter_true, List.tail_nil, List.map_cons]
      rw [ih]

theorem count_pair_map (l : List Nat) (o : Nat) (m : OutMsg) :
    (l.map (fun ws => (ws, m))).count (o, m) = l.count o := by
  induction l with
  | nil => rfl
  | cons a t ih =>
      simp only [List.map_cons, List.count_cons, ih]
      congr 1
      by_cases h : a = o
      · simp [h]
      · simp [h, Prod.ext_iff]

theorem sendMessageE_ok (env : ConnEnv) (ws : Nat) (m : OutMsg) :
    sendMessageE env ws m = Except.ok (sendMessage env ws m) := by
  unfold sendMessage sendMessageE rawSend
  by_cases h : env.readyState ws = 1
  · by_cases hf : env.sendFails ws <;> simp [h, hf, Except.toOption]
  · simp [h, Except.toOption]

theorem sendMessage_not_open (env : ConnEnv) (ws : Nat) (m : OutMsg)
    (h : env.readyState ws ≠ 1) : sendMessage env ws m = [] := by
  unfold sendMessage sendMessageE rawSend
  simp [h, Except.toOption]

/-! ### Claim theorems -/

/-- An environment in which every connection is OPEN and sends succeed. -/
def envOpen : ConnEnv :=
  { readyState := fun _ => 1, sendFails := fun _ => false }

/-- An environment in which every connection is CLOSED (readyState 3)
and the raw send would throw. -/
def envClosed : ConnEnv :=
  { readyState := fun _ => 3, sendFails := fun _ => true }

/-- C6: for every outbound message and connection, `sendMessage` drops
the message silently when the connection is not OPEN at send time
(`readyState ≠ 1` gives no transport handoff), and never raises an
error to its caller regardless of the connection state or a failure of
the underlying send (`sendMessageE` always returns `Except.ok`). -/
theorem send_best_effort_never_raises (env : ConnEnv) (ws : Nat) (m : OutMsg) :
    sendMessageE env ws m = Except.ok (sendMessage env ws m)
    ∧ (env.readyState ws ≠ 1 → sendMessage env ws m = []) :=
  ⟨sendMessageE_ok env ws m, sendMessage_not_open env ws m⟩

/-- Witness for C6 at a concrete closed, send-throwing connection. -/
theorem send_best_effort_never_raises_witness :
    sendMessageE envClosed 0 (subscribedMsg "j") =
      Except.ok (sendMessage envClosed 0 (subscribedMsg "j"))
    ∧ sendMessage envClosed 0 (subscribedMsg "j") = [] :=
  ⟨(send_best_effort_never_raises envClosed 0 (subscribedMsg "j")).1,
   (send_best_effort_never_raises envClosed 0 (subscribedMsg "j")).2 (by decide)⟩

/-- C9: `cleanupConnection` is idempotent: running the cleanup of one
connection twice, from any state of the connection set and subscription
map, equals running it once — so invoking it from both the `error` and
the `close` handler of the same connection is harmless. -/
theorem cleanup_idempotent (ws : Nat) (st : RelayState) :
    cleanupConnection ws (cleanupConnection ws st) = cleanupConnection ws st := by
  unfold cleanupConnection
  simp only [Finset.erase_idem, cleanupReg_idem]

/-- C3: `subscribeToJob` is idempotent — subscribing the same connection
to the same job twice leaves the registry exactly as one subscribe; the
connection then occurs exactly once in the job's set (a singleton set
when it is the only subscriber), and the entry is created when the job
had none. -/
theorem subscribe_idempotent (env : ConnEnv) (ws : Nat) (j : String)
    (reg : Registry) :
    (subscribeToJob env ws j (subscribeToJob env ws j reg).1).1 =
      (subscribeToJob env ws j reg).1
    ∧ ws ∈ subsOf (subscribeToJob env ws j reg).1 j
    ∧ Multiset.count ws (subsOf (subscribeToJob env ws j reg).1 j).val = 1
    ∧ (mapGet reg j = none → subsOf (subscribeToJob env ws j reg).1 j = {ws})
    ∧ (mapGet (subscribeToJob env ws j reg).1 j).isSome := by
  refine ⟨?_, ?_, ?_, ?_, ?_⟩
  · rw [subscribeToJob_fst env ws j (subscribeToJob env ws j reg).1,
      subsOf_subscribeToJob, Finset.insert_idem,
      subscribeToJob_fst env ws j reg, mapSet_mapSet]
  · rw [subsOf_subscribeToJob]
    exact Finset.mem_insert_self _ _
  · rw [subsOf_subscribeToJob]
    exact Multiset.count_eq_one_of_mem (insert ws (subsOf reg j)).nodup
      (Finset.mem_insert_self _ _)
  · intro hnone
    rw [subsOf_subscribeToJob]
    unfold subsOf
    rw [hnone]
    rfl
  · rw [subscribeToJob_fst, mapGet_mapSet_self]
    rfl

/-- Witness for C3 on the empty registry. -/
theorem subscribe_idempotent_witness :
    (subscribeToJob envOpen 0 "j" (subscribeToJob envOpen 0 "j" []).1).1 =
      (subscribeToJob envOpen 0 "j" []).1
    ∧ subsOf (subscribeToJob envOpen 0 "j" []).1 "j" = {0} :=
  ⟨(subscribe_idempotent envOpen 0 "j" []).1,
   (subscribe_idempotent envOpen 0 "j" []).2.2.2.1 rfl⟩

/-- C10: `subscribeToJob` registers the connection no matter whether it
is open or closed at that moment; only the `subscribed` acknowledgment
depends on openness (dropped silently when the connection is not OPEN,
delivered when it is OPEN and the raw send succeeds) — so a
closed-but-not-yet-cleaned connection can sit in the registry. -/
theorem subscribe_regardless_of_open (env : ConnEnv) (ws : Nat) (j : String)
    (reg : Registry) :
    ws ∈ subsOf (subscribeToJob env ws j reg).1 j
    ∧ (env.readyState ws ≠ 1 → (subscribeToJob env ws j reg).2 = [])
    ∧ (env.readyState ws = 1 → env.sendFails ws = false →
        (subscribeToJob env ws j reg).2 = [(ws, subscribedMsg j)]) := by
  refine ⟨?_, ?_, ?_⟩
  · rw [subsOf_subscribeToJob]
    exact Finset.mem_insert_self _ _
  · intro h
    show sendMessage env ws (subscribedMsg j) = []
    exact sendMessage_not_open env ws (subscribedMsg j) h
  · intro h1 h2
    show sendMessage env ws (subscribedMsg j) = [(ws, subscribedMsg j)]
    unfold sendMessage sendMessageE rawSend
    simp [h1, h2, Except.toOption]

/-- Witness for C10: a closed connection still lands in the registry,
and its acknowledgment is dropped. -/
theorem subscribe_regardless_of_open_witness :
    5 ∈ subsOf (subscribeToJob envClosed 5 "job" []).1 "job"
    ∧ (subscribeToJob envClosed 5 "job" []).2 = [] :=
  ⟨(subscribe_regardless_of_open envClosed 5 "job" []).1,
   (subscribe_regardless_of_open envClosed 5 "job" []).2.1 (by decide)⟩

theorem mapGet_mapDelete_self (reg : Registry) (k : String) :
    mapGet (mapDelete reg k) k = none := by
  induction reg with
  | nil => rfl
  | cons p rest ih =>
      obtain ⟨k', v⟩ := p
      by_cases hk : k' = k
      · simpa [mapDelete, List.filter_cons, hk] using ih
      · simpa [mapDelete, List.filter_cons, hk, mapGet] using ih

/-- C2: in every state reachable by any sequence of subscribe,
unsubscribe and connection-close operations, a job id is a key of
`jobSubscriptions` iff its observer set is non-empty; in particular an
unsubscribe that empties a job's set removes the key. -/
theorem registry_key_iff_nonempty (st : RelayState) (h : Reachable st) :
    ∀ j : String,
      ((mapGet st.jobSubscriptions j).isSome ↔ subsOf st.jobSubscriptions j ≠ ∅)
      ∧ (∀ ws : Nat, subsOf st.jobSubscriptions j = {ws} →
          mapGet (unsubscribeFromJob ws j st.jobSubscriptions) j = none) := by
  intro j
  have hwf := reachable_regWF st h
  constructor
  · constructor
    · intro hs
      cases hg : mapGet st.jobSubscriptions j with
      | none => rw [hg] at hs; simp at hs
      | some s =>
          have hne := hwf _ (mapGet_mem _ _ _ hg)
          simpa [subsOf, hg] using hne
    · intro hne
      cases hg : mapGet st.jobSubscriptions j with
      | none =>
          exfalso
          apply hne
          simp [subsOf, hg]
      | some s => simp [hg]
  · intro ws hs
    cases hg : mapGet st.jobSubscriptions j with
    | none =>
        exfalso
        rw [subsOf, hg] at hs
        exact Finset.singleton_ne_empty ws hs.symm
    | some s =>
        rw [subsOf, hg] at hs
        simp only [Option.getD_some] at hs
        unfold unsubscribeFromJob
        rw [hg, hs]
        simp only [Finset.erase_singleton, Finset.card_empty, if_pos rfl]
        exact mapGet_mapDelete_self _ _

/-- Witness for C2 in the reachable state obtained by one subscribe. -/
theorem registry_key_iff_nonempty_witness :
    ((mapGet ((handleMessage envOpen 7
        { type := WSType.subscribe, job_id := some "J1" } initialState).1).jobSubscriptions
        "J1").isSome ↔
      subsOf ((handleMessage envOpen 7
        { type := WSType.subscribe, job_id := some "J1" } initialState).1).jobSubscriptions
        "J1" ≠ ∅)
    ∧ (∀ ws : Nat, subsOf ((handleMessage envOpen 7
        { type := WSType.subscribe, job_id := some "J1" } initialState).1).jobSubscriptions
        "J1" = {ws} →
        mapGet (unsubscribeFromJob ws "J1" ((handleMessage envOpen 7
          { type := WSType.subscribe, job_id := some "J1" } initialState).1).jobSubscriptions)
          "J1" = none) :=
  registry_key_iff_nonempty _
    (Reachable.message envOpen 7 { type := WSType.subscribe, job_id := some "J1" }
      initialState Reachable.init) "J1"

/-- C5: one `cleanupConnection` call removes the connection from the
observer set of every job it belongs to, leaves no emptied entry behind,
and on a connection with zero subscriptions it is a no-op on the
subscription map (and, being a total function, raises no error).
`RegWF` holds in every reachable state (`reachable_regWF`). -/
theorem cleanup_removes_everywhere (ws : Nat) (st : RelayState)
    (hwf : RegWF st.jobSubscriptions) :
    (∀ j : String, ws ∉ subsOf (cleanupConnection ws st).jobSubscriptions j)
    ∧ (∀ p ∈ (cleanupConnection ws st).jobSubscriptions, p.2 ≠ (∅ : Finset Nat))
    ∧ ((∀ p ∈ st.jobSubscriptions, ws ∉ p.2) →
        (cleanupConnection ws st).jobSubscriptions = st.jobSubscriptions) := by
  refine ⟨?_, ?_, ?_⟩
  · intro j
    show ws ∉ subsOf (cleanupReg ws st.jobSubscriptions) j
    cases hg : mapGet (cleanupReg ws st.jobSubscriptions) j with
    | none => simp [subsOf, hg]
    | some s =>
        have := mapGet_cleanupReg_not_mem ws st.jobSubscriptions j s hg
        simpa [subsOf, hg] using this
  · exact regWF_cleanupReg ws st.jobSubscriptions
  · intro hnm
    exact cleanupReg_noop ws st.jobSubscriptions hwf hnm

/-- Witness for C5: connection 1 subscribed to two jobs is removed from
both (emptying and deleting the entry for the second), and cleanup of
the unsubscribed connection 9 leaves the map unchanged. -/
theorem cleanup_removes_everywhere_witness :
    (∀ j : String, 1 ∉ subsOf
        (cleanupConnection 1
          { allConnections := {1, 2},
            jobSubscriptions := [("J1", {1, 2}), ("J2", {1})] }).jobSubscriptions j)
    ∧ (cleanupConnection 9
        { allConnections := {1, 2},
          jobSubscriptions := [("J1", {1, 2}), ("J2", {1})] }).jobSubscriptions =
        [("J1", {1, 2}), ("J2", {1})] :=
  ⟨(cleanup_removes_everywhere 1
      { allConnections := {1, 2}, jobSubscriptions := [("J1", {1, 2}), ("J2", {1})] }
      (by unfold RegWF; decide)).1,
   (cleanup_removes_everywhere 9
      { allConnections := {1, 2}, jobSubscriptions := [("J1", {1, 2}), ("J2", {1})] }
      (by unfold RegWF; decide)).2.2 (by decide)⟩

/-- C8: unsubscribing a connection from a job it is not subscribed to
(including a job with no entry at all) leaves the whole subscription map
— indeed the whole gateway state — unchanged, and sends no reply.
`RegWF` holds in every reachable state (`reachable_regWF`). -/
theorem unsubscribe_frame_noop (env : ConnEnv) (ws : Nat) (j : String)
    (st : RelayState) (hwf : RegWF st.jobSubscriptions)
    (hnm : ws ∉ subsOf st.jobSubscriptions j) :
    unsubscribeFromJob ws j st.jobSubscriptions = st.jobSubscriptions
    ∧ handleMessage env ws { type := WSType.unsubscribe, job_id := some j } st =
        (st, []) := by
  have hreg : unsubscribeFromJob ws j st.jobSubscriptions = st.jobSubscriptions := by
    unfold unsubscribeFromJob
    cases hg : mapGet st.jobSubscriptions j with
    | none => rfl
    | some s =>
        have hs : ws ∉ s := by simpa [subsOf, hg] using hnm
        have hne : s ≠ ∅ := hwf _ (mapGet_mem _ _ _ hg)
        have he : s.erase ws = s := Finset.erase_eq_of_not_mem hs
        have hc2 : ¬ s.card = 0 := fun h0 => hne (Finset.card_eq_zero.mp h0)
        simp only [he]
        rw [if_neg hc2]
        exact mapSet_eq_of_mapGet _ _ _ hg
  refine ⟨hreg, ?_⟩
  show ({ st with jobSubscriptions := unsubscribeFromJob ws j st.jobSubscriptions },
    ([] : List (Nat × OutMsg))) = (st, [])
  rw [hreg]

/-- Witness for C8: unsubscribing connection 1 from a job it is not in,
and from a job with no entry, changes nothing and replies nothing. -/
theorem unsubscribe_frame_noop_witness :
    unsubscribeFromJob 1 "J9"
        ({ allConnections := {2}, jobSubscriptions := [("J1", {2})] } : RelayState).jobSubscriptions =
      [("J1", {2})]
    ∧ handleMessage envOpen 1 { type := WSType.unsubscribe, job_id := some "J9" }
        { allConnections := {2}, jobSubscriptions := [("J1", {2})] } =
        ({ allConnections := {2}, jobSubscriptions := [("J1", {2})] }, []) :=
  unsubscribe_frame_noop envOpen 1 "J9"
    { allConnections := {2}, jobSubscriptions := [("J1", {2})] }
    (by unfold RegWF; decide) (by decide)

theorem setToList_nodup (s : Finset Nat) : (setToList s).Nodup :=
  Finset.sort_nodup _ s

theorem mem_setToList {s : Finset Nat} {a : Nat} : a ∈ setToList s ↔ a ∈ s :=
  Finset.mem_sort _

/-- C1: for a status event for job `J`, the relay hands exactly one
`status`-tagged message carrying `job_id = J` to each observer currently
registered for `J`, and hands nothing to an observer not registered for
`J` (in particular to observers registered only for other jobs). -/
theorem relay_status_forward_exactly_once (reg : Registry) (ev : StatusMessage)
    (o : Nat) :
    ((statusOutMsg ev).tag = Tag.status ∧ (statusOutMsg ev).job_id = some ev.job_id)
    ∧ (o ∈ subsOf reg ev.job_id →
        (handleStatusUpdate reg ev).count (o, statusOutMsg ev) = 1)
    ∧ (∀ m : OutMsg, (o, m) ∈ handleStatusUpdate reg ev →
        m = statusOutMsg ev ∧ o ∈ subsOf reg ev.job_id) := by
  refine ⟨⟨rfl, rfl⟩, ?_, ?_⟩
  · intro ho
    unfold handleStatusUpdate broadcastToJob
    cases hg : mapGet reg ev.job_id with
    | none =>
        exfalso
        rw [subsOf, hg] at ho
        simp at ho
    | some subs =>
        rw [subsOf, hg] at ho
        simp only [Option.getD_some] at ho
        rw [count_pair_map]
        exact List.count_eq_one_of_mem (setToList_nodup subs) (mem_setToList.mpr ho)
  · intro m hm
    unfold handleStatusUpdate broadcastToJob at hm
    cases hg : mapGet reg ev.job_id with
    | none =>
        rw [hg] at hm
        simp at hm
    | some subs =>
        rw [hg] at hm
        simp only [List.mem_map] at hm
        obtain ⟨w, hw, heq⟩ := hm
        have h1 : w = o := congrArg Prod.fst heq
        have h2 : statusOutMsg ev = m := congrArg Prod.snd heq
        refine ⟨h2.symm, ?_⟩
        rw [subsOf, hg]
        simp only [Option.getD_some]
        rw [← h1]
        exact mem_setToList.mp hw

/-- Witness for C1: observer 3 of job `J1` gets exactly one status
message while observer 5, registered only for `J2`, gets nothing. -/
theorem relay_status_forward_exactly_once_witness :
    (handleStatusUpdate [("J1", {3, 4}), ("J2", {5})]
        { job_id := "J1", status := JobStatus.processing, progress := some 50 }).count
      (3, statusOutMsg
        { job_id := "J1", status := JobStatus.processing, progress := some 50 }) = 1
    ∧ ∀ m : OutMsg,
        (5, m) ∈ handleStatusUpdate [("J1", {3, 4}), ("J2", {5})]
          { job_id := "J1", status := JobStatus.processing, progress := some 50 } →
        False :=
  ⟨(relay_status_forward_exactly_once [("J1", {3, 4}), ("J2", {5})]
      { job_id := "J1", status := JobStatus.processing, progress := some 50 } 3).2.1
      (by decide),
   fun m hm =>
     absurd ((relay_status_forward_exactly_once [("J1", {3, 4}), ("J2", {5})]
       { job_id := "J1", status := JobStatus.processing, progress := some 50 } 5).2.2
       m hm).2 (by decide)⟩

/-- C7: the set iterated over by `broadcastToJob` behaves as a safe
snapshot of the registry entry: with no interleaved mutation the
broadcast is exactly one send per registered observer (`forEachSend`
with the empty schedule), and under any schedule of removals applied
during the iteration every message handed out still carries the event's
own tag and job id (never another job's), goes only to originally
registered observers, and reaches each observer at most once. -/
theorem broadcast_snapshot_safe (reg : Registry) (ev : StatusMessage)
    (sched : List (Finset Nat)) :
    broadcastToJob reg ev.job_id (statusOutMsg ev) =
      forEachSend (statusOutMsg ev) (setToList (subsOf reg ev.job_id)) []
    ∧ (∀ p ∈ forEachSend (statusOutMsg ev) (setToList (subsOf reg ev.job_id)) sched,
        p.2 = statusOutMsg ev ∧ p.1 ∈ subsOf reg ev.job_id)
    ∧ ((forEachSend (statusOutMsg ev) (setToList (subsOf reg ev.job_id)) sched).map
        Prod.fst).Nodup := by
  refine ⟨?_, ?_, ?_⟩
  · rw [forEachSend_no_mutation]
    unfold broadcastToJob
    cases hg : mapGet reg ev.job_id with
    | none =>
        rw [subsOf, hg]
        simp [setToList, Finset.sort_empty]
    | some subs =>
        rw [subsOf, hg]
        simp
  · intro p hp
    exact ⟨forEachSend_snd _ _ _ p hp,
      mem_setToList.mp (forEachSend_fst_mem _ _ _ p hp)⟩
  · exact forEachSend_fst_nodup _ _ _ (setToList_nodup _)

/-- Witness for C7: concurrent removal of observer 4 during a broadcast
for `J1` still delivers each observer at most once. -/
theorem broadcast_snapshot_safe_witness :
    ((forEachSend (statusOutMsg { job_id := "J1", status := JobStatus.processing })
        (setToList (subsOf [("J1", {3, 4})] "J1")) [{4}]).map Prod.fst).Nodup :=
  (broadcast_snapshot_safe [("J1", {3, 4})]
    { job_id := "J1", status := JobStatus.processing } [{4}]).2.2

/-- C4: when the enqueue of the job descriptor to the durable work list
fails (`pushJobToQueue` raises), the submission route marks the job
`failed` with the non-empty error message `"Failed to queue job"`,
answers the submitter with an error response (HTTP 500, success false),
and emits no status publish, no completion publish, and no queue push
for any job id. -/
theorem submit_enqueue_failure_marks_failed (env : SubmitEnv) (jid : String)
    (hurl : env.urlValid = true) (hjob : env.createdJob = some jid)
    (hq : env.queuePushFails = true) :
    (submitRepo env).1.success = false
    ∧ (submitRepo env).1.httpStatus = 500
    ∧ (∃ msg : String, msg ≠ "" ∧
        Effect.updateStatus jid JobStatus.failed (some msg) ∈ (submitRepo env).2)
    ∧ (∀ j : String, Effect.publishStatusEvent j ∉ (submitRepo env).2
        ∧ Effect.publishCompleteEvent j ∉ (submitRepo env).2
        ∧ Effect.queueListPush j ∉ (submitRepo env).2) := by
  have hs : submitRepo env =
      ({ httpStatus := 500, success := false,
         error := some "Failed to queue job for processing" },
       [Effect.updateStatus jid JobStatus.processing none,
        Effect.updateStatus jid JobStatus.failed (some "Failed to queue job")]) := by
    unfold submitRepo pushJobToQueue
    rw [hurl, hjob, hq]
    simp
  rw [hs]
  refine ⟨rfl, rfl, ⟨"Failed to queue job", by decide, by simp⟩, ?_⟩
  intro j
  refine ⟨by simp, by simp, by simp⟩

/-- Witness for C4 at a concrete submission whose bus write fails. -/
theorem submit_enqueue_failure_marks_failed_witness :
    (submitRepo ⟨true, some "job-1", true⟩).1.success = false
    ∧ (submitRepo ⟨true, some "job-1", true⟩).1.httpStatus = 500
    ∧ (∃ msg : String, msg ≠ "" ∧
        Effect.updateStatus "job-1" JobStatus.failed (some msg) ∈
          (submitRepo ⟨true, some "job-1", true⟩).2)
    ∧ (∀ j : String,
        Effect.publishStatusEvent j ∉ (submitRepo ⟨true, some "job-1", true⟩).2
        ∧ Effect.publishCompleteEvent j ∉ (submitRepo ⟨true, some "job-1", true⟩).2
        ∧ Effect.queueListPush j ∉ (submitRepo ⟨true, some "job-1", true⟩).2) :=
  submit_enqueue_failure_marks_failed ⟨true, some "job-1", true⟩ "job-1" rfl rfl rfl
